import Mathlib

/-!
Verification of the benchmark-result extraction pipeline of
fff-bench/scripts/analyze_compress_log.py.

The script scans two free-text benchmark logs with Python regular
expressions, correlates per-workload measurements for three systems
(Parquet, Vortex, Lance) with a four-slot transient state machine,
merges both passes into one shared table keyed by workload, and writes
a fixed-schema CSV.

The embedding below models the exact regular expressions used by the
script with a small pattern language (literal characters, the any
character dot, and greedy one-or-more character-class repetitions,
optionally capturing).  Character classes are read in their ASCII
interpretation.  Python truthiness of the four state variables (None
and the empty string are falsy) is modelled by the function truthy.
-/

namespace FffBench

/-- Character classes appearing in the scripts patterns:
word characters, digits-or-dot, digits. -/
inductive CClass where
  | wordc : CClass
  | digitDot : CClass
  | digitc : CClass
deriving DecidableEq, Repr

/-- Membership of a character in a class (ASCII reading of the Python
classes \w, [\d.] and \d). -/
def charIn (cl : CClass) (c : Char) : Bool :=
  match cl with
  | .wordc => c.isAlphanum || c = '_'
  | .digitDot => c.isDigit || c = '.'
  | .digitc => c.isDigit

/-- One item of a pattern: a literal character, the dot (any character),
a greedy uncaptured one-or-more repetition, or the greedy captured
one-or-more repetition forming group 1. -/
inductive RItem where
  | lit : Char → RItem
  | anyc : RItem
  | plus : CClass → RItem
  | gplus : CClass → RItem
deriving DecidableEq, Repr

/-- Greedy backtracking loop of an uncaptured repetition: try the
continuation after consuming k characters, for k from the maximal run
length down to 1. -/
def tryLens (f : Nat → Option (Option (List Char))) : Nat → Option (Option (List Char))
  | 0 => none
  | k + 1 =>
    match f (k + 1) with
    | some r => some r
    | none => tryLens f k

/-- Greedy backtracking loop of the captured repetition: like tryLens,
but on success the consumed run becomes group 1. -/
def tryLensG (f : Nat → Option (Option (List Char))) (cap : Nat → List Char) :
    Nat → Option (Option (List Char))
  | 0 => none
  | k + 1 =>
    match f (k + 1) with
    | some _ => some (some (cap (k + 1)))
    | none => tryLensG f cap k

/-- Match a pattern against the start of a string.  Returns none on
failure, some g on success where g is the content of group 1 if the
pattern has a capturing group. -/
def matchFrom : List RItem → List Char → Option (Option (List Char))
  | [], _ => some none
  | .lit c :: ps, cs =>
    match cs with
    | [] => none
    | d :: cs' => if d = c then matchFrom ps cs' else none
  | .anyc :: ps, cs =>
    match cs with
    | [] => none
    | _ :: cs' => matchFrom ps cs'
  | .plus cl :: ps, cs =>
    tryLens (fun k => matchFrom ps (cs.drop k)) ((cs.takeWhile (charIn cl)).length)
  | .gplus cl :: ps, cs =>
    tryLensG (fun k => matchFrom ps (cs.drop k)) (fun k => cs.take k)
      ((cs.takeWhile (charIn cl)).length)

/-- Python re.search: try the pattern at every start position, leftmost
first; on success report group 1. -/
def rsearch (p : List RItem) : List Char → Option (Option (List Char))
  | [] => matchFrom p []
  | c :: cs =>
    match matchFrom p (c :: cs) with
    | some r => some r
    | none => rsearch p cs

/-- A run of literal characters inside a pattern. -/
def lits (s : String) : List RItem := s.data.map RItem.lit

/-- The pattern r'/parquet/(\w+).parquet' used to recognise a workload
header line (the dot is an unescaped any-character). -/
def workloadPat : List RItem :=
  lits "/parquet/" ++ [RItem.gplus .wordc, RItem.anyc] ++ lits "parquet"

/-- The pattern r'Parquet size: ([\d.]+) MB, \d+B'. -/
def parquetSizePat : List RItem :=
  lits "Parquet size: " ++ [RItem.gplus .digitDot] ++ lits " MB, " ++
    [RItem.plus .digitc] ++ lits "B"

/-- The pattern r'Vortex size: ([\d.]+) MB, \d+B'. -/
def vortexSizePat : List RItem :=
  lits "Vortex size: " ++ [RItem.gplus .digitDot] ++ lits " MB, " ++
    [RItem.plus .digitc] ++ lits "B"

/-- The pattern r'Lance directory aggregate size: ([\d.]+) MB, \d+B'. -/
def lanceSizePat : List RItem :=
  lits "Lance directory aggregate size: " ++ [RItem.gplus .digitDot] ++ lits " MB, " ++
    [RItem.plus .digitc] ++ lits "B"

/-- The pattern r'Reading parquet file took ([\d.]+)ms'. -/
def parquetScanPat : List RItem :=
  lits "Reading parquet file took " ++ [RItem.gplus .digitDot] ++ lits "ms"

/-- The pattern r'Reading vortex file took ([\d.]+)ms'. -/
def vortexScanPat : List RItem :=
  lits "Reading vortex file took " ++ [RItem.gplus .digitDot] ++ lits "ms"

/-- The pattern r'Reading lance file took ([\d.]+)ms'. -/
def lanceScanPat : List RItem :=
  lits "Reading lance file took " ++ [RItem.gplus .digitDot] ++ lits "ms"

/-- The Metric StrEnum of the script. -/
inductive Metric where
  | SIZE : Metric
  | SCAN_TIME : Metric
deriving DecidableEq, Repr

/-- One row of the shared result dictionary: the workload key written
into the row plus the six optional metric fields.  A missing dictionary
key is the none value. -/
structure ResultRow where
  workload : Option String := none
  parquet_size : Option String := none
  vortex_size : Option String := none
  lance_size : Option String := none
  parquet_scan_time : Option String := none
  vortex_scan_time : Option String := none
  lance_scan_time : Option String := none
deriving DecidableEq, Repr

/-- The shared data dictionary, insertion ordered (Python dict). -/
abbrev ResultTable := List (String × ResultRow)

/-- Python dict update combined with setdefault: if the key is present
the row is updated in place keeping its position, otherwise a fresh row
is appended at the end. -/
def upsert (d : ResultTable) (w : String) (f : ResultRow → ResultRow) : ResultTable :=
  match d with
  | [] => [(w, f {})]
  | (k, r) :: t => if k = w then (k, f r) :: t else (k, r) :: upsert t w f

/-- The assignments performed at commit time: the workload key itself
plus the three fields of the active metric family. -/
def setMetricFields (m : Metric) (w p v l : String) (r : ResultRow) : ResultRow :=
  match m with
  | .SIZE =>
    { r with workload := some w, parquet_size := some p, vortex_size := some v,
             lance_size := some l }
  | .SCAN_TIME =>
    { r with workload := some w, parquet_scan_time := some p, vortex_scan_time := some v,
             lance_scan_time := some l }

/-- The four transient state variables of process_log. -/
structure Slots where
  current_workload : Option String
  current_parquet_metric : Option String
  current_vortex_metric : Option String
  current_lance_metric : Option String
deriving DecidableEq, Repr

/-- The all-None transient state. -/
def emptySlots : Slots := ⟨none, none, none, none⟩

/-- Python truthiness of an optional string: None and the empty string
are falsy. -/
def truthy : Option String → Bool
  | none => false
  | some s => !s.data.isEmpty

/-- One slot update: if the pattern produced a match the slot becomes
group 1 of the match, otherwise the slot is unchanged. -/
def updSlot (res : Option (Option (List Char))) (old : Option String) : Option String :=
  match res with
  | some g => g.map String.mk
  | none => old

/-- The four independent per-line updates of process_log, in source
order: workload header first, then the three system patterns. -/
def updSlots (pq vx lc : List RItem) (s : Slots) (line : List Char) : Slots :=
  ⟨updSlot (rsearch workloadPat line) s.current_workload,
   updSlot (rsearch pq line) s.current_parquet_metric,
   updSlot (rsearch vx line) s.current_vortex_metric,
   updSlot (rsearch lc line) s.current_lance_metric⟩

/-- The commit condition of process_log, with Python truthiness. -/
def slotsReady (s : Slots) : Bool :=
  truthy s.current_workload && truthy s.current_parquet_metric &&
    truthy s.current_vortex_metric && truthy s.current_lance_metric

/-- A committed quadruple: workload plus the three system values. -/
structure Commit where
  w : String
  p : String
  v : String
  l : String
deriving DecidableEq, Repr

/-- The quadruple read out of a ready transient state. -/
def commitOf (s : Slots) : Commit :=
  ⟨s.current_workload.getD "", s.current_parquet_metric.getD "",
   s.current_vortex_metric.getD "", s.current_lance_metric.getD ""⟩

/-- Applying one commit to the shared table: setdefault then the field
assignments of the active metric family. -/
def applyCommit (m : Metric) (d : ResultTable) (c : Commit) : ResultTable :=
  upsert d c.w (setMetricFields m c.w c.p c.v c.l)

/-- A list of commits applied left to right. -/
def applyCommits (m : Metric) (d : ResultTable) (cs : List Commit) : ResultTable :=
  cs.foldl (applyCommit m) d

/-- Tail of each line iteration of process_log: if all four state
variables are truthy, commit a row and reset the transient state. -/
def commitStep (m : Metric) (d : ResultTable) (s : Slots) : ResultTable × Slots :=
  if slotsReady s then (applyCommit m d (commitOf s), emptySlots) else (d, s)

/-- One full line iteration of process_log. -/
def processLine (pq vx lc : List RItem) (m : Metric) (st : ResultTable × Slots)
    (line : List Char) : ResultTable × Slots :=
  commitStep m st.1 (updSlots pq vx lc st.2 line)

/-- Python whitespace characters, as removed by str.strip. -/
def isPySpace (c : Char) : Bool :=
  c = ' ' || c = '\t' || c = '\n' || c = '\r' || c = '\x0b' || c = '\x0c'

/-- Python str.strip: drop leading and trailing whitespace. -/
def pyStrip (cs : List Char) : List Char :=
  ((cs.dropWhile isPySpace).reverse.dropWhile isPySpace).reverse

/-- Python str.split with a one-character separator: every occurrence
separates, the empty string yields one empty part. -/
def splitSep (sep : Char) : List Char → List (List Char)
  | [] => [[]]
  | c :: cs =>
    if c = sep then [] :: splitSep sep cs
    else
      match splitSep sep cs with
      | [] => [[c]]
      | l :: ls => (c :: l) :: ls

/-- The line split of process_log: log_data.strip().split with the
newline separator. -/
def splitLines (log : String) : List (List Char) :=
  splitSep '\n' (pyStrip log.data)

/-- process_log: fold the per-line step over all lines of the log,
starting from the all-None transient state, threading the shared data
dictionary; returns the updated dictionary. -/
def processLog (pq vx lc : List RItem) (m : Metric) (d : ResultTable)
    (log : String) : ResultTable :=
  ((splitLines log).foldl (processLine pq vx lc m) (d, emptySlots)).1

/-- The result table of the size pass alone, from empty shared data. -/
def sizePassTable (a : String) : ResultTable :=
  processLog parquetSizePat vortexSizePat lanceSizePat .SIZE [] a

/-- The result table of the scan-time pass alone, from empty shared
data. -/
def scanPassTable (b : String) : ResultTable :=
  processLog parquetScanPat vortexScanPat lanceScanPat .SCAN_TIME [] b

/-- The merged table of get_result_csv: the scan-time pass runs over
the shared dictionary left by the size pass. -/
def mergedTable (a b : String) : ResultTable :=
  processLog parquetScanPat vortexScanPat lanceScanPat .SCAN_TIME (sizePassTable a) b

/-- The fixed fieldnames list of the csv.DictWriter, in source order. -/
def fieldnames : List String :=
  ["workload", "parquet_size", "vortex_size", "lance_size",
   "lance_scan_time", "parquet_scan_time", "vortex_scan_time"]

/-- Dictionary lookup of a row field by CSV column name. -/
def fieldGet (r : ResultRow) (n : String) : Option String :=
  if n = "workload" then r.workload
  else if n = "parquet_size" then r.parquet_size
  else if n = "vortex_size" then r.vortex_size
  else if n = "lance_size" then r.lance_size
  else if n = "lance_scan_time" then r.lance_scan_time
  else if n = "parquet_scan_time" then r.parquet_scan_time
  else if n = "vortex_scan_time" then r.vortex_scan_time
  else none

/-- Joining CSV cells with commas.  For the values produced by this
pipeline (no comma, quote or line break ever occurs in a cell) this is
exactly the line written by csv.DictWriter with minimal quoting. -/
def csvJoin : List String → String
  | [] => ""
  | [c] => c
  | c :: c' :: cs => c ++ "," ++ csvJoin (c' :: cs)

/-- The header line written by writeheader. -/
def csvHeader : String := csvJoin fieldnames

/-- One data line written by writerow: each named field in fieldnames
order, a missing dictionary key serialising as the empty string (the
DictWriter restval). -/
def rowLine (r : ResultRow) : String :=
  csvJoin (fieldnames.map (fun n => (fieldGet r n).getD ""))

/-- The full CSV, as its list of lines: header then one line per
workload in dictionary order. -/
def exportCsv (d : ResultTable) : List String :=
  csvHeader :: d.map (fun kr => rowLine kr.2)

/-- get_result_csv: run the size pass over the compress log, the
scan-time pass over the scan log sharing the same dictionary, and
serialise the merged table. -/
def getResultCsv (a b : String) : List String :=
  exportCsv (mergedTable a b)

/-- Modelled from the spec: the re-parse direction of the CSV
round-trip (performed in the source by pandas read_csv inside plot,
an external library).  Per the spec, each data line splits on commas
into the seven cells in fieldnames order and an empty cell is read
back as an absent field; the workload cell doubles as the key. -/
def parseCell (cs : List Char) : Option String :=
  if cs = [] then none else some (String.mk cs)

/-- Modelled from the spec: parse one CSV data line back into a keyed
result row. -/
def parseCsvRow (line : String) : String × ResultRow :=
  let cs := splitSep ',' line.data
  let get := fun i => (cs.getD i [])
  (String.mk (get 0),
   { workload := parseCell (get 0), parquet_size := parseCell (get 1),
     vortex_size := parseCell (get 2), lance_size := parseCell (get 3),
     lance_scan_time := parseCell (get 4), parquet_scan_time := parseCell (get 5),
     vortex_scan_time := parseCell (get 6) })

/-- Modelled from the spec: parse a whole CSV (header line then data
lines) back into a result table. -/
def parseCsv (lines : List String) : ResultTable :=
  (lines.drop 1).map parseCsvRow

/-- Association-list lookup in the shared dictionary. -/
def lookupW : ResultTable → String → Option ResultRow
  | [], _ => none
  | (k, r) :: t, w => if k = w then some r else lookupW t w

/-- The keys of the shared dictionary, in insertion order. -/
def keysOf (d : ResultTable) : List String := d.map Prod.fst

/-- A slot is either empty or holds a nonempty string (Python never
stores an empty string in a slot because every capturing group is a
one-or-more repetition). -/
def okSlot (o : Option String) : Prop := ∀ s, o = some s → s.data ≠ []

/-- All four transient state variables are none or nonempty. -/
def slotsOk (t : Slots) : Prop :=
  okSlot t.current_workload ∧ okSlot t.current_parquet_metric ∧
    okSlot t.current_vortex_metric ∧ okSlot t.current_lance_metric

/-- All four transient state variables are simultaneously non-null. -/
def allSome (t : Slots) : Prop :=
  t.current_workload.isSome = true ∧ t.current_parquet_metric.isSome = true ∧
    t.current_vortex_metric.isSome = true ∧ t.current_lance_metric.isSome = true

instance (t : Slots) : Decidable (allSome t) := by
  unfold allSome
  infer_instance

/-- The inductive shape of the per-line invariant. -/
def lineInv (st : ResultTable × Slots) : Prop := slotsOk st.2 ∧ ¬ allSome st.2

/-- Ghost instrumentation of the correlator: the commits emitted while
scanning a list of lines from a given transient state.  This re-runs
exactly the transient part of processLine, recording instead of
applying each commit. -/
def commitsFrom (pq vx lc : List RItem) (t : Slots) : List (List Char) → List Commit
  | [] => []
  | line :: rest =>
    let u := updSlots pq vx lc t line
    if slotsReady u then commitOf u :: commitsFrom pq vx lc emptySlots rest
    else commitsFrom pq vx lc u rest

/-- The commit sequence of one whole log. -/
def logCommits (pq vx lc : List RItem) (log : String) : List Commit :=
  commitsFrom pq vx lc emptySlots (splitLines log)

/-- The committed workload sequence of one log, in commit order. -/
def committedWs (pq vx lc : List RItem) (log : String) : List String :=
  (logCommits pq vx lc log).map Commit.w

/-- First-occurrence deduplication helper with an accumulator of keys
already seen. -/
def dedupFirstAux (seen : List String) : List String → List String
  | [] => []
  | x :: xs =>
    if x ∈ seen then dedupFirstAux seen xs else x :: dedupFirstAux (x :: seen) xs

/-- First-occurrence deduplication: keeps each key at its first
position. -/
def dedupFirst (xs : List String) : List String := dedupFirstAux [] xs

/-- The three size fields are populated. -/
def sizeDone (r : ResultRow) : Prop :=
  r.parquet_size.isSome = true ∧ r.vortex_size.isSome = true ∧ r.lance_size.isSome = true

/-- The three scan-time fields are populated. -/
def scanDone (r : ResultRow) : Prop :=
  r.parquet_scan_time.isSome = true ∧ r.vortex_scan_time.isSome = true ∧
    r.lance_scan_time.isSome = true

/-- The three size fields are absent (not zero: absent). -/
def sizeAbsent (r : ResultRow) : Prop :=
  r.parquet_size = none ∧ r.vortex_size = none ∧ r.lance_size = none

/-- The three scan-time fields are absent (not zero: absent). -/
def scanAbsent (r : ResultRow) : Prop :=
  r.parquet_scan_time = none ∧ r.vortex_scan_time = none ∧ r.lance_scan_time = none

/-- A character that never needs CSV quoting. -/
def csvSafeChar (c : Char) : Prop := c ≠ ',' ∧ c ≠ '"' ∧ c ≠ '\n' ∧ c ≠ '\r'

/-- A nonempty string of CSV-safe characters. -/
def csvSafe (s : String) : Prop := s.data ≠ [] ∧ ∀ c ∈ s.data, csvSafeChar c

/-- An optional field is absent or a CSV-safe value. -/
def csvSafeOpt (o : Option String) : Prop :=
  match o with
  | none => True
  | some s => csvSafe s

/-- A table entry as produced by the pipeline: the row carries its own
workload key and all its cells are CSV-safe values. -/
def rowClean (k : String) (r : ResultRow) : Prop :=
  r.workload = some k ∧ csvSafe k ∧ csvSafeOpt r.parquet_size ∧ csvSafeOpt r.vortex_size ∧
    csvSafeOpt r.lance_size ∧ csvSafeOpt r.parquet_scan_time ∧
    csvSafeOpt r.vortex_scan_time ∧ csvSafeOpt r.lance_scan_time

/-- The fields of the active metric family are populated. -/
def metricDone : Metric → ResultRow → Prop
  | .SIZE => sizeDone
  | .SCAN_TIME => scanDone

/-- The fields of the other metric family are absent. -/
def otherMetricAbsent : Metric → ResultRow → Prop
  | .SIZE => scanAbsent
  | .SCAN_TIME => sizeAbsent

instance (c : Char) : Decidable (csvSafeChar c) := by
  unfold csvSafeChar
  infer_instance

instance (s : String) : Decidable (csvSafe s) := by
  unfold csvSafe
  infer_instance

instance (o : Option String) : Decidable (csvSafeOpt o) := by
  unfold csvSafeOpt
  cases o <;> infer_instance

instance (k : String) (r : ResultRow) : Decidable (rowClean k r) := by
  unfold rowClean
  infer_instance

instance (r : ResultRow) : Decidable (sizeDone r) := by
  unfold sizeDone
  infer_instance

instance (r : ResultRow) : Decidable (scanDone r) := by
  unfold scanDone
  infer_instance

instance (r : ResultRow) : Decidable (sizeAbsent r) := by
  unfold sizeAbsent
  infer_instance

instance (r : ResultRow) : Decidable (scanAbsent r) := by
  unfold scanAbsent
  infer_instance

/-! ### Captures of the pattern language are never empty

Every capturing group of the pattern language is a one-or-more
repetition, so group 1 of any successful match is a nonempty string. -/

lemma tryLens_forall (f : Nat → Option (Option (List Char))) (P : List Char → Prop)
    (hf : ∀ k g, f k = some (some g) → P g) :
    ∀ n g, tryLens f n = some (some g) → P g := by
  intro n
  induction n with
  | zero => intro g h; simp [tryLens] at h
  | succ k ih =>
    intro g h
    rw [tryLens] at h
    rcases hf' : f (k + 1) with _ | r
    · rw [hf'] at h; exact ih g h
    · rw [hf'] at h
      cases h
      exact hf (k + 1) g hf'

lemma tryLensG_ne (f : Nat → Option (Option (List Char))) (cap : Nat → List Char) :
    ∀ n, (∀ k, 1 ≤ k → k ≤ n → cap k ≠ []) →
      ∀ g, tryLensG f cap n = some (some g) → g ≠ [] := by
  intro n
  induction n with
  | zero => intro _ g h; simp [tryLensG] at h
  | succ k ih =>
    intro hcap g h
    rw [tryLensG] at h
    rcases hf' : f (k + 1) with _ | r
    · rw [hf'] at h
      exact ih (fun j h1 h2 => hcap j h1 (Nat.le_succ_of_le h2)) g h
    · rw [hf'] at h
      cases h
      exact hcap (k + 1) (Nat.succ_le_succ (Nat.zero_le k)) (Nat.le_refl _)

lemma matchFrom_capture_ne : ∀ (p : List RItem) (cs g : List Char),
    matchFrom p cs = some (some g) → g ≠ [] := by
  intro p
  induction p with
  | nil => intro cs g h; simp [matchFrom] at h
  | cons i ps ih =>
    intro cs g h
    cases i with
    | lit c =>
      cases cs with
      | nil => simp [matchFrom] at h
      | cons d cs' =>
        rw [matchFrom] at h
        by_cases hd : d = c
        · rw [if_pos hd] at h; exact ih cs' g h
        · rw [if_neg hd] at h; cases h
    | anyc =>
      cases cs with
      | nil => simp [matchFrom] at h
      | cons d cs' =>
        rw [matchFrom] at h
        exact ih cs' g h
    | plus cl =>
      rw [matchFrom] at h
      exact tryLens_forall _ (· ≠ []) (fun k g' h' => ih (cs.drop k) g' h') _ g h
    | gplus cl =>
      rw [matchFrom] at h
      refine tryLensG_ne _ _ _ ?_ g h
      intro k h1 h2
      cases cs with
      | nil => simp at h2; omega
      | cons c cs' =>
        cases k with
        | zero => omega
        | succ k' => simp [List.take]


lemma rsearch_capture_ne : ∀ (p : List RItem) (cs g : List Char),
    rsearch p cs = some (some g) → g ≠ [] := by
  intro p cs
  induction cs with
  | nil => intro g h; exact matchFrom_capture_ne p [] g h
  | cons c cs' ih =>
    intro g h
    rw [rsearch] at h
    rcases hm : matchFrom p (c :: cs') with _ | r
    · rw [hm] at h; exact ih g h
    · rw [hm] at h
      cases h
      exact matchFrom_capture_ne p (c :: cs') g hm

/-! ### Empty pattern results on the empty line -/

lemma updSlot_matchFrom_nil (p : List RItem) : updSlot (matchFrom p []) none = none := by
  cases p with
  | nil => rfl
  | cons i ps => cases i <;> rfl

lemma updSlot_rsearch_nil (p : List RItem) : updSlot (rsearch p []) none = none := by
  have h : rsearch p [] = matchFrom p [] := rfl
  rw [h]
  exact updSlot_matchFrom_nil p

@[simp] lemma string_mk_data (s : String) : String.mk s.data = s := rfl

lemma isEmpty_false_of_ne {cs : List Char} (h : cs ≠ []) : cs.isEmpty = false := by
  cases hc : cs with
  | nil => exact absurd hc h
  | cons a t => rfl

/-! ### The state-machine invariant: the four slots are never all full
after a line has been fully processed -/

lemma okSlot_none : okSlot none := by intro s h; cases h

lemma okSlot_updSlot (p : List RItem) (line : List Char) (old : Option String)
    (hold : okSlot old) : okSlot (updSlot (rsearch p line) old) := by
  rcases h : rsearch p line with _ | g
  · simpa [updSlot, h] using hold
  · cases g with
    | none => simp [updSlot, h, okSlot]
    | some cs =>
      intro s hs
      simp [updSlot, h] at hs
      rw [← hs]
      exact rsearch_capture_ne p line cs h

lemma slotsOk_updSlots (pq vx lc : List RItem) (t : Slots) (line : List Char)
    (ht : slotsOk t) : slotsOk (updSlots pq vx lc t line) :=
  ⟨okSlot_updSlot _ _ _ ht.1, okSlot_updSlot _ _ _ ht.2.1,
   okSlot_updSlot _ _ _ ht.2.2.1, okSlot_updSlot _ _ _ ht.2.2.2⟩

lemma slotsOk_emptySlots : slotsOk emptySlots :=
  ⟨okSlot_none, okSlot_none, okSlot_none, okSlot_none⟩

lemma truthy_of_okSlot_isSome {o : Option String} (hok : okSlot o)
    (hs : o.isSome = true) : truthy o = true := by
  rcases o with _ | s
  · cases hs
  · have := hok s rfl
    simp [truthy, this]

lemma not_allSome_of_not_ready {t : Slots} (hok : slotsOk t)
    (h : slotsReady t = false) : ¬ allSome t := by
  intro hall
  rw [slotsReady,
      truthy_of_okSlot_isSome hok.1 hall.1,
      truthy_of_okSlot_isSome hok.2.1 hall.2.1,
      truthy_of_okSlot_isSome hok.2.2.1 hall.2.2.1,
      truthy_of_okSlot_isSome hok.2.2.2 hall.2.2.2] at h
  cases h

lemma not_allSome_emptySlots : ¬ allSome emptySlots := by
  intro h
  cases h.1

lemma lineInv_step (pq vx lc : List RItem) (m : Metric) (st : ResultTable × Slots)
    (line : List Char) (h : lineInv st) : lineInv (processLine pq vx lc m st line) := by
  have hupd : slotsOk (updSlots pq vx lc st.2 line) := slotsOk_updSlots _ _ _ _ _ h.1
  rw [processLine, commitStep]
  rcases hr : slotsReady (updSlots pq vx lc st.2 line) with _ | _
  · rw [if_neg (by simp [hr])]
    exact ⟨hupd, not_allSome_of_not_ready hupd hr⟩
  · rw [if_pos (by simp [hr])]
    exact ⟨slotsOk_emptySlots, not_allSome_emptySlots⟩

lemma lineInv_foldl (pq vx lc : List RItem) (m : Metric) :
    ∀ (lines : List (List Char)) (st : ResultTable × Slots), lineInv st →
      lineInv (lines.foldl (processLine pq vx lc m) st) := by
  intro lines
  induction lines with
  | nil => intro st h; exact h
  | cons line rest ih =>
    intro st h
    exact ih _ (lineInv_step pq vx lc m st line h)

/-- C4: after every fully processed line, the four transient state
variables are never all simultaneously non-null; and whenever the
updates of a line make all four non-null, that very step commits a row
(an upsert of the shared dictionary) and resets all four to null. -/
theorem slots_never_all_full (m : Metric) (pq vx lc : List RItem) (d0 : ResultTable)
    (lines : List (List Char)) :
    ¬ allSome ((lines.foldl (processLine pq vx lc m) (d0, emptySlots)).2)
    ∧ ∀ line : List Char,
        allSome (updSlots pq vx lc ((lines.foldl (processLine pq vx lc m) (d0, emptySlots)).2) line) →
        ∃ w p v l, processLine pq vx lc m (lines.foldl (processLine pq vx lc m) (d0, emptySlots)) line
          = (upsert ((lines.foldl (processLine pq vx lc m) (d0, emptySlots)).1) w
               (setMetricFields m w p v l), emptySlots) := by
  have hinv : lineInv (lines.foldl (processLine pq vx lc m) (d0, emptySlots)) :=
    lineInv_foldl pq vx lc m lines (d0, emptySlots) ⟨slotsOk_emptySlots, not_allSome_emptySlots⟩
  refine ⟨hinv.2, ?_⟩
  intro line hall
  set st := lines.foldl (processLine pq vx lc m) (d0, emptySlots) with hst
  set u := updSlots pq vx lc st.2 line with hu
  have hok : slotsOk u := slotsOk_updSlots _ _ _ _ _ hinv.1
  have hready : slotsReady u = true := by
    rw [slotsReady,
        truthy_of_okSlot_isSome hok.1 hall.1,
        truthy_of_okSlot_isSome hok.2.1 hall.2.1,
        truthy_of_okSlot_isSome hok.2.2.1 hall.2.2.1,
        truthy_of_okSlot_isSome hok.2.2.2 hall.2.2.2]
    rfl
  obtain ⟨w, hw⟩ := Option.isSome_iff_exists.mp hall.1
  obtain ⟨p, hp⟩ := Option.isSome_iff_exists.mp hall.2.1
  obtain ⟨v, hv⟩ := Option.isSome_iff_exists.mp hall.2.2.1
  obtain ⟨l, hl⟩ := Option.isSome_iff_exists.mp hall.2.2.2
  refine ⟨w, p, v, l, ?_⟩
  rw [processLine, ← hu, commitStep, if_pos (by simp [hready])]
  rw [applyCommit, commitOf, hw, hp, hv, hl]
  rfl

/-- Witness for C4: a concrete three-line prefix (header, parquet and
vortex size lines) followed by the lance size line, whose updates fill
all four slots, commits and resets in that very step. -/
theorem slots_never_all_full_witness :
    ∃ w p v l, processLine parquetSizePat vortexSizePat lanceSizePat .SIZE
        (["/parquet/core.parquet".data, "Parquet size: 1.5 MB, 100B".data,
          "Vortex size: 2.5 MB, 100B".data].foldl
          (processLine parquetSizePat vortexSizePat lanceSizePat .SIZE) ([], emptySlots))
        "Lance directory aggregate size: 3.5 MB, 100B".data
      = (upsert (["/parquet/core.parquet".data, "Parquet size: 1.5 MB, 100B".data,
          "Vortex size: 2.5 MB, 100B".data].foldl
          (processLine parquetSizePat vortexSizePat lanceSizePat .SIZE) ([], emptySlots)).1 w
          (setMetricFields .SIZE w p v l), emptySlots) :=
  (slots_never_all_full .SIZE parquetSizePat vortexSizePat lanceSizePat []
    ["/parquet/core.parquet".data, "Parquet size: 1.5 MB, 100B".data,
     "Vortex size: 2.5 MB, 100B".data]).2
    "Lance directory aggregate size: 3.5 MB, 100B".data (by decide)

/-! ### C1: a well-formed four-line cluster commits exactly one row,
in any interleaving order -/

/-- C1: given a header line that matches only the workload pattern and
three measurement lines each matching only their own system pattern,
processing the four lines in any order from the all-null transient
state and an empty table commits exactly one row, keyed by the captured
workload, with each captured value attached to the correct system field
of the active metric kind, and resets the transient state. -/
theorem cluster_commits_one_row
    (m : Metric) (pq vx lc : List RItem)
    (lw lp lv ll : List Char) (w p v l : String)
    (hw1 : rsearch workloadPat lw = some (some w.data))
    (hw2 : rsearch pq lw = none) (hw3 : rsearch vx lw = none) (hw4 : rsearch lc lw = none)
    (hp1 : rsearch workloadPat lp = none) (hp2 : rsearch pq lp = some (some p.data))
    (hp3 : rsearch vx lp = none) (hp4 : rsearch lc lp = none)
    (hv1 : rsearch workloadPat lv = none) (hv2 : rsearch pq lv = none)
    (hv3 : rsearch vx lv = some (some v.data)) (hv4 : rsearch lc lv = none)
    (hl1 : rsearch workloadPat ll = none) (hl2 : rsearch pq ll = none)
    (hl3 : rsearch vx ll = none) (hl4 : rsearch lc ll = some (some l.data))
    (ls : List (List Char)) (hperm : ls.Perm [lw, lp, lv, ll]) :
    ls.foldl (processLine pq vx lc m) ([], emptySlots)
      = ([(w, setMetricFields m w p v l {})], emptySlots) := by
  have hwe : w.data.isEmpty = false := isEmpty_false_of_ne (rsearch_capture_ne _ _ _ hw1)
  have hpe : p.data.isEmpty = false := isEmpty_false_of_ne (rsearch_capture_ne _ _ _ hp2)
  have hve : v.data.isEmpty = false := isEmpty_false_of_ne (rsearch_capture_ne _ _ _ hv3)
  have hle : l.data.isEmpty = false := isEmpty_false_of_ne (rsearch_capture_ne _ _ _ hl4)
  have d1 : lw ≠ lp := by intro e; rw [e, hp1] at hw1; cases hw1
  have d2 : lw ≠ lv := by intro e; rw [e, hv1] at hw1; cases hw1
  have d3 : lw ≠ ll := by intro e; rw [e, hl1] at hw1; cases hw1
  have d4 : lp ≠ lv := by intro e; rw [e, hv2] at hp2; cases hp2
  have d5 : lp ≠ ll := by intro e; rw [e, hl2] at hp2; cases hp2
  have d6 : lv ≠ ll := by intro e; rw [e, hl3] at hv3; cases hv3
  have hnd : ls.Nodup := hperm.nodup_iff.mpr (by simp [d1, d2, d3, d4, d5, d6])
  obtain ⟨x1, x2, x3, x4, rfl⟩ : ∃ a b c d, ls = [a, b, c, d] := by
    have hlen := hperm.length_eq
    rcases ls with _ | ⟨a, _ | ⟨b, _ | ⟨c, _ | ⟨d, _ | ⟨e, t⟩⟩⟩⟩⟩
    · simp at hlen
    · simp at hlen
    · simp at hlen
    · simp at hlen
    · exact ⟨a, b, c, d, rfl⟩
    · simp at hlen
  have m1 : x1 ∈ [lw, lp, lv, ll] := hperm.mem_iff.mp (by simp)
  have m2 : x2 ∈ [lw, lp, lv, ll] := hperm.mem_iff.mp (by simp)
  have m3 : x3 ∈ [lw, lp, lv, ll] := hperm.mem_iff.mp (by simp)
  have m4 : x4 ∈ [lw, lp, lv, ll] := hperm.mem_iff.mp (by simp)
  simp only [List.mem_cons, List.mem_singleton, List.not_mem_nil, or_false] at m1 m2 m3 m4
  rcases m1 with rfl | rfl | rfl | rfl <;> rcases m2 with rfl | rfl | rfl | rfl <;>
    rcases m3 with rfl | rfl | rfl | rfl <;> rcases m4 with rfl | rfl | rfl | rfl <;>
    try (simp at hnd)
  all_goals
    simp [List.foldl, processLine, updSlots, updSlot, commitStep, slotsReady, commitOf,
      applyCommit, upsert, emptySlots, truthy, hwe, hpe, hve, hle,
      hw1, hw2, hw3, hw4, hp1, hp2, hp3, hp4, hv1, hv2, hv3, hv4, hl1, hl2, hl3, hl4]

/-- Witness for C1: a concrete size cluster processed in a shuffled
order (parquet line, header, lance line, vortex line). -/
theorem cluster_commits_one_row_witness :
    ["Parquet size: 1.5 MB, 100B".data, "/parquet/core.parquet".data,
     "Lance directory aggregate size: 3.5 MB, 100B".data,
     "Vortex size: 2.5 MB, 100B".data].foldl
        (processLine parquetSizePat vortexSizePat lanceSizePat .SIZE) ([], emptySlots)
      = ([("core", setMetricFields .SIZE "core" "1.5" "2.5" "3.5" {})], emptySlots) :=
  cluster_commits_one_row .SIZE parquetSizePat vortexSizePat lanceSizePat
    "/parquet/core.parquet".data "Parquet size: 1.5 MB, 100B".data
    "Vortex size: 2.5 MB, 100B".data "Lance directory aggregate size: 3.5 MB, 100B".data
    "core" "1.5" "2.5" "3.5"
    (by decide) (by decide) (by decide) (by decide)
    (by decide) (by decide) (by decide) (by decide)
    (by decide) (by decide) (by decide) (by decide)
    (by decide) (by decide) (by decide) (by decide)
    _ (by decide)

/-- Overwriting the fields of one metric family supersedes an earlier
assignment of the same family. -/
lemma setMetricFields_overwrite (m : Metric) (w w' p v l p' v' l' : String) (r : ResultRow) :
    setMetricFields m w p v l (setMetricFields m w' p' v' l' r)
      = setMetricFields m w p v l r := by
  cases m <;> simp [setMetricFields]

/-- C2: if a second workload header arrives before the first cluster
has all three measurements (here: after only the parquet measurement),
only the later header commits a row; the row carries the later
measurements, and the earlier header gets no row of its own. -/
theorem second_header_supersedes_first
    (m : Metric) (pq vx lc : List RItem)
    (lw1 lp1 lw2 lp2 lv ll : List Char) (w1 p1 w2 p2 v l : String)
    (ha1 : rsearch workloadPat lw1 = some (some w1.data))
    (ha2 : rsearch pq lw1 = none) (ha3 : rsearch vx lw1 = none) (ha4 : rsearch lc lw1 = none)
    (hb1 : rsearch workloadPat lp1 = none) (hb2 : rsearch pq lp1 = some (some p1.data))
    (hb3 : rsearch vx lp1 = none) (hb4 : rsearch lc lp1 = none)
    (hc1 : rsearch workloadPat lw2 = some (some w2.data))
    (hc2 : rsearch pq lw2 = none) (hc3 : rsearch vx lw2 = none) (hc4 : rsearch lc lw2 = none)
    (hd1 : rsearch workloadPat lp2 = none) (hd2 : rsearch pq lp2 = some (some p2.data))
    (hd3 : rsearch vx lp2 = none) (hd4 : rsearch lc lp2 = none)
    (he1 : rsearch workloadPat lv = none) (he2 : rsearch pq lv = none)
    (he3 : rsearch vx lv = some (some v.data)) (he4 : rsearch lc lv = none)
    (hf1 : rsearch workloadPat ll = none) (hf2 : rsearch pq ll = none)
    (hf3 : rsearch vx ll = none) (hf4 : rsearch lc ll = some (some l.data)) :
    [lw1, lp1, lw2, lp2, lv, ll].foldl (processLine pq vx lc m) ([], emptySlots)
      = ([(w2, setMetricFields m w2 p2 v l {})], emptySlots)
    ∧ (w1 ≠ w2 →
        lookupW ([lw1, lp1, lw2, lp2, lv, ll].foldl (processLine pq vx lc m)
          ([], emptySlots)).1 w1 = none) := by
  have hwe : w2.data.isEmpty = false := isEmpty_false_of_ne (rsearch_capture_ne _ _ _ hc1)
  have hpe : p2.data.isEmpty = false := isEmpty_false_of_ne (rsearch_capture_ne _ _ _ hd2)
  have hve : v.data.isEmpty = false := isEmpty_false_of_ne (rsearch_capture_ne _ _ _ he3)
  have hle : l.data.isEmpty = false := isEmpty_false_of_ne (rsearch_capture_ne _ _ _ hf4)
  have hrun : [lw1, lp1, lw2, lp2, lv, ll].foldl (processLine pq vx lc m) ([], emptySlots)
      = ([(w2, setMetricFields m w2 p2 v l {})], emptySlots) := by
    simp [List.foldl, processLine, updSlots, updSlot, commitStep, slotsReady, commitOf,
      applyCommit, upsert, emptySlots, truthy, hwe, hpe, hve, hle,
      ha1, ha2, ha3, ha4, hb1, hb2, hb3, hb4, hc1, hc2, hc3, hc4,
      hd1, hd2, hd3, hd4, he1, he2, he3, he4, hf1, hf2, hf3, hf4]
  refine ⟨hrun, fun hne => ?_⟩
  rw [hrun]
  simp [lookupW, hne.symm]

/-- Witness for C2: two concrete headers (core then lineitem) with a
parquet line in between; only lineitem gets a row, carrying the later
parquet value. -/
theorem second_header_supersedes_first_witness :
    ["/parquet/core.parquet".data, "Parquet size: 1.5 MB, 100B".data,
     "/parquet/lineitem.parquet".data, "Parquet size: 9.9 MB, 100B".data,
     "Vortex size: 2.5 MB, 100B".data,
     "Lance directory aggregate size: 3.5 MB, 100B".data].foldl
        (processLine parquetSizePat vortexSizePat lanceSizePat .SIZE) ([], emptySlots)
      = ([("lineitem", setMetricFields .SIZE "lineitem" "9.9" "2.5" "3.5" {})], emptySlots)
    ∧ ("core" ≠ "lineitem" →
        lookupW (["/parquet/core.parquet".data, "Parquet size: 1.5 MB, 100B".data,
          "/parquet/lineitem.parquet".data, "Parquet size: 9.9 MB, 100B".data,
          "Vortex size: 2.5 MB, 100B".data,
          "Lance directory aggregate size: 3.5 MB, 100B".data].foldl
            (processLine parquetSizePat vortexSizePat lanceSizePat .SIZE)
            ([], emptySlots)).1 "core" = none) :=
  second_header_supersedes_first .SIZE parquetSizePat vortexSizePat lanceSizePat
    "/parquet/core.parquet".data "Parquet size: 1.5 MB, 100B".data
    "/parquet/lineitem.parquet".data "Parquet size: 9.9 MB, 100B".data
    "Vortex size: 2.5 MB, 100B".data "Lance directory aggregate size: 3.5 MB, 100B".data
    "core" "1.5" "lineitem" "9.9" "2.5" "3.5"
    (by decide) (by decide) (by decide) (by decide)
    (by decide) (by decide) (by decide) (by decide)
    (by decide) (by decide) (by decide) (by decide)
    (by decide) (by decide) (by decide) (by decide)
    (by decide) (by decide) (by decide) (by decide)
    (by decide) (by decide) (by decide) (by decide)

/-- C9: pending measurement slots are not cleared by a workload header.
First scenario: a parquet measurement line arriving before any header
stays pending and is committed into the row of the workload whose
header arrives later.  Second scenario: a parquet measurement matched
while an earlier (never committed) header was active is committed into
the row of the later header. -/
theorem pending_slots_survive_header
    (m : Metric) (pq vx lc : List RItem)
    (lw lw2 lp lv ll : List Char) (w w2 p v l : String)
    (ha1 : rsearch workloadPat lw = some (some w.data))
    (ha2 : rsearch pq lw = none) (ha3 : rsearch vx lw = none) (ha4 : rsearch lc lw = none)
    (hc1 : rsearch workloadPat lw2 = some (some w2.data))
    (hc2 : rsearch pq lw2 = none) (hc3 : rsearch vx lw2 = none) (hc4 : rsearch lc lw2 = none)
    (hb1 : rsearch workloadPat lp = none) (hb2 : rsearch pq lp = some (some p.data))
    (hb3 : rsearch vx lp = none) (hb4 : rsearch lc lp = none)
    (he1 : rsearch workloadPat lv = none) (he2 : rsearch pq lv = none)
    (he3 : rsearch vx lv = some (some v.data)) (he4 : rsearch lc lv = none)
    (hf1 : rsearch workloadPat ll = none) (hf2 : rsearch pq ll = none)
    (hf3 : rsearch vx ll = none) (hf4 : rsearch lc ll = some (some l.data)) :
    [lp, lw, lv, ll].foldl (processLine pq vx lc m) ([], emptySlots)
      = ([(w, setMetricFields m w p v l {})], emptySlots)
    ∧ [lw, lp, lw2, lv, ll].foldl (processLine pq vx lc m) ([], emptySlots)
      = ([(w2, setMetricFields m w2 p v l {})], emptySlots) := by
  have hwe : w.data.isEmpty = false := isEmpty_false_of_ne (rsearch_capture_ne _ _ _ ha1)
  have hwe2 : w2.data.isEmpty = false := isEmpty_false_of_ne (rsearch_capture_ne _ _ _ hc1)
  have hpe : p.data.isEmpty = false := isEmpty_false_of_ne (rsearch_capture_ne _ _ _ hb2)
  have hve : v.data.isEmpty = false := isEmpty_false_of_ne (rsearch_capture_ne _ _ _ he3)
  have hle : l.data.isEmpty = false := isEmpty_false_of_ne (rsearch_capture_ne _ _ _ hf4)
  constructor <;>
    simp [List.foldl, processLine, updSlots, updSlot, commitStep, slotsReady, commitOf,
      applyCommit, upsert, emptySlots, truthy, hwe, hwe2, hpe, hve, hle,
      ha1, ha2, ha3, ha4, hb1, hb2, hb3, hb4, hc1, hc2, hc3, hc4,
      he1, he2, he3, he4, hf1, hf2, hf3, hf4]

/-- Witness for C9: a concrete parquet line before any header, and the
same parquet line under the core header followed by the lineitem
header; the measurement lands in the completing workload's row. -/
theorem pending_slots_survive_header_witness :
    ["Parquet size: 1.5 MB, 100B".data, "/parquet/core.parquet".data,
     "Vortex size: 2.5 MB, 100B".data,
     "Lance directory aggregate size: 3.5 MB, 100B".data].foldl
        (processLine parquetSizePat vortexSizePat lanceSizePat .SIZE) ([], emptySlots)
      = ([("core", setMetricFields .SIZE "core" "1.5" "2.5" "3.5" {})], emptySlots)
    ∧ ["/parquet/core.parquet".data, "Parquet size: 1.5 MB, 100B".data,
       "/parquet/lineitem.parquet".data, "Vortex size: 2.5 MB, 100B".data,
       "Lance directory aggregate size: 3.5 MB, 100B".data].foldl
        (processLine parquetSizePat vortexSizePat lanceSizePat .SIZE) ([], emptySlots)
      = ([("lineitem", setMetricFields .SIZE "lineitem" "1.5" "2.5" "3.5" {})], emptySlots) :=
  pending_slots_survive_header .SIZE parquetSizePat vortexSizePat lanceSizePat
    "/parquet/core.parquet".data "/parquet/lineitem.parquet".data
    "Parquet size: 1.5 MB, 100B".data "Vortex size: 2.5 MB, 100B".data
    "Lance directory aggregate size: 3.5 MB, 100B".data
    "core" "lineitem" "1.5" "2.5" "3.5"
    (by decide) (by decide) (by decide) (by decide)
    (by decide) (by decide) (by decide) (by decide)
    (by decide) (by decide) (by decide) (by decide)
    (by decide) (by decide) (by decide) (by decide)
    (by decide) (by decide) (by decide) (by decide)

/-- C10: when the same workload completes two clusters in one log, the
second commit overwrites the metric-family fields of the first in
place; the exported row holds the later values and the table still has
exactly one row. -/
theorem later_cluster_overwrites
    (m : Metric) (pq vx lc : List RItem)
    (lw lp1 lv1 ll1 lp2 lv2 ll2 : List Char) (w p1 v1 l1 p2 v2 l2 : String)
    (ha1 : rsearch workloadPat lw = some (some w.data))
    (ha2 : rsearch pq lw = none) (ha3 : rsearch vx lw = none) (ha4 : rsearch lc lw = none)
    (hb1 : rsearch workloadPat lp1 = none) (hb2 : rsearch pq lp1 = some (some p1.data))
    (hb3 : rsearch vx lp1 = none) (hb4 : rsearch lc lp1 = none)
    (hc1 : rsearch workloadPat lv1 = none) (hc2 : rsearch pq lv1 = none)
    (hc3 : rsearch vx lv1 = some (some v1.data)) (hc4 : rsearch lc lv1 = none)
    (hd1 : rsearch workloadPat ll1 = none) (hd2 : rsearch pq ll1 = none)
    (hd3 : rsearch vx ll1 = none) (hd4 : rsearch lc ll1 = some (some l1.data))
    (he1 : rsearch workloadPat lp2 = none) (he2 : rsearch pq lp2 = some (some p2.data))
    (he3 : rsearch vx lp2 = none) (he4 : rsearch lc lp2 = none)
    (hf1 : rsearch workloadPat lv2 = none) (hf2 : rsearch pq lv2 = none)
    (hf3 : rsearch vx lv2 = some (some v2.data)) (hf4 : rsearch lc lv2 = none)
    (hg1 : rsearch workloadPat ll2 = none) (hg2 : rsearch pq ll2 = none)
    (hg3 : rsearch vx ll2 = none) (hg4 : rsearch lc ll2 = some (some l2.data)) :
    [lw, lp1, lv1, ll1, lw, lp2, lv2, ll2].foldl (processLine pq vx lc m) ([], emptySlots)
      = ([(w, setMetricFields m w p2 v2 l2 {})], emptySlots)
    ∧ ([lw, lp1, lv1, ll1, lw, lp2, lv2, ll2].foldl (processLine pq vx lc m)
        ([], emptySlots)).1.length = 1 := by
  have hwe : w.data.isEmpty = false := isEmpty_false_of_ne (rsearch_capture_ne _ _ _ ha1)
  have hp1e : p1.data.isEmpty = false := isEmpty_false_of_ne (rsearch_capture_ne _ _ _ hb2)
  have hv1e : v1.data.isEmpty = false := isEmpty_false_of_ne (rsearch_capture_ne _ _ _ hc3)
  have hl1e : l1.data.isEmpty = false := isEmpty_false_of_ne (rsearch_capture_ne _ _ _ hd4)
  have hp2e : p2.data.isEmpty = false := isEmpty_false_of_ne (rsearch_capture_ne _ _ _ he2)
  have hv2e : v2.data.isEmpty = false := isEmpty_false_of_ne (rsearch_capture_ne _ _ _ hf3)
  have hl2e : l2.data.isEmpty = false := isEmpty_false_of_ne (rsearch_capture_ne _ _ _ hg4)
  have hrun : [lw, lp1, lv1, ll1, lw, lp2, lv2, ll2].foldl (processLine pq vx lc m)
      ([], emptySlots) = ([(w, setMetricFields m w p2 v2 l2 {})], emptySlots) := by
    simp [List.foldl, processLine, updSlots, updSlot, commitStep, slotsReady, commitOf,
      applyCommit, upsert, emptySlots, truthy, setMetricFields_overwrite,
      hwe, hp1e, hv1e, hl1e, hp2e, hv2e, hl2e,
      ha1, ha2, ha3, ha4, hb1, hb2, hb3, hb4, hc1, hc2, hc3, hc4, hd1, hd2, hd3, hd4,
      he1, he2, he3, he4, hf1, hf2, hf3, hf4, hg1, hg2, hg3, hg4]
  rw [hrun]
  exact ⟨rfl, rfl⟩

/-- Witness for C10: the core workload completes two size clusters; the
exported row holds the second cluster's values and there is one row. -/
theorem later_cluster_overwrites_witness :
    ["/parquet/core.parquet".data, "Parquet size: 1.5 MB, 100B".data,
     "Vortex size: 2.5 MB, 100B".data,
     "Lance directory aggregate size: 3.5 MB, 100B".data,
     "/parquet/core.parquet".data, "Parquet size: 7.5 MB, 100B".data,
     "Vortex size: 8.5 MB, 100B".data,
     "Lance directory aggregate size: 9.5 MB, 100B".data].foldl
        (processLine parquetSizePat vortexSizePat lanceSizePat .SIZE) ([], emptySlots)
      = ([("core", setMetricFields .SIZE "core" "7.5" "8.5" "9.5" {})], emptySlots)
    ∧ (["/parquet/core.parquet".data, "Parquet size: 1.5 MB, 100B".data,
        "Vortex size: 2.5 MB, 100B".data,
        "Lance directory aggregate size: 3.5 MB, 100B".data,
        "/parquet/core.parquet".data, "Parquet size: 7.5 MB, 100B".data,
        "Vortex size: 8.5 MB, 100B".data,
        "Lance directory aggregate size: 9.5 MB, 100B".data].foldl
          (processLine parquetSizePat vortexSizePat lanceSizePat .SIZE)
          ([], emptySlots)).1.length = 1 :=
  later_cluster_overwrites .SIZE parquetSizePat vortexSizePat lanceSizePat
    "/parquet/core.parquet".data "Parquet size: 1.5 MB, 100B".data
    "Vortex size: 2.5 MB, 100B".data "Lance directory aggregate size: 3.5 MB, 100B".data
    "Parquet size: 7.5 MB, 100B".data "Vortex size: 8.5 MB, 100B".data
    "Lance directory aggregate size: 9.5 MB, 100B".data
    "core" "1.5" "2.5" "3.5" "7.5" "8.5" "9.5"
    (by decide) (by decide) (by decide) (by decide)
    (by decide) (by decide) (by decide) (by decide)
    (by decide) (by decide) (by decide) (by decide)
    (by decide) (by decide) (by decide) (by decide)
    (by decide) (by decide) (by decide) (by decide)
    (by decide) (by decide) (by decide) (by decide)
    (by decide) (by decide) (by decide) (by decide)

/-- C7: Applying the size-pass pattern matching step to the log line
Parquet size: 12.5 MB, 13107200B while the current workload is core
records the extracted text 12.5 in the parquet slot of the SIZE pass
for workload core, leaving everything else (including the shared data)
unchanged and committing nothing. -/
theorem parquet_size_line_extracts_text :
    processLine parquetSizePat vortexSizePat lanceSizePat .SIZE
        ([], ⟨some "core", none, none, none⟩) "Parquet size: 12.5 MB, 13107200B".data
      = ([], ⟨some "core", some "12.5", none, none⟩) := by
  decide

/-- C8: an empty log file leaves the shared dictionary unchanged under
process_log with any patterns and metric kind (zero rows committed),
and the CSV produced from two empty logs is exactly the header line. -/
theorem empty_log_only_header :
    (∀ (pq vx lc : List RItem) (m : Metric) (d : ResultTable), processLog pq vx lc m d "" = d)
    ∧ getResultCsv "" ""
        = ["workload,parquet_size,vortex_size,lance_size,lance_scan_time,parquet_scan_time,vortex_scan_time"]
    ∧ mergedTable "" "" = [] := by
  refine ⟨?_, by decide, by decide⟩
  intro pq vx lc m d
  have hsplit : splitLines "" = [[]] := rfl
  have hupd : updSlots pq vx lc emptySlots [] = emptySlots := by
    simp [updSlots, emptySlots, updSlot_rsearch_nil]
  have hline : processLine pq vx lc m (d, emptySlots) [] = (d, emptySlots) := by
    show commitStep m d (updSlots pq vx lc emptySlots []) = (d, emptySlots)
    rw [hupd]
    simp [commitStep, slotsReady, emptySlots, truthy]
  simp [processLog, hsplit, hline]

/-! ### Decomposing a pass into its commit sequence -/

lemma applyCommits_nil (m : Metric) (d : ResultTable) : applyCommits m d [] = d := rfl

lemma applyCommits_cons (m : Metric) (d : ResultTable) (c : Commit) (cs : List Commit) :
    applyCommits m d (c :: cs) = applyCommits m (applyCommit m d c) cs := rfl

lemma foldl_processLine_decomp (pq vx lc : List RItem) (m : Metric) :
    ∀ (lines : List (List Char)) (d : ResultTable) (t : Slots),
      (lines.foldl (processLine pq vx lc m) (d, t)).1
        = applyCommits m d (commitsFrom pq vx lc t lines) := by
  intro lines
  induction lines with
  | nil => intro d t; rfl
  | cons line rest ih =>
    intro d t
    have hstep : processLine pq vx lc m (d, t) line
        = commitStep m d (updSlots pq vx lc t line) := rfl
    cases hr : slotsReady (updSlots pq vx lc t line) with
    | true =>
      rw [List.foldl_cons, hstep, commitStep, if_pos (by simp [hr])]
      rw [ih]
      simp only [commitsFrom, hr, if_pos, applyCommits_cons]
    | false =>
      rw [List.foldl_cons, hstep, commitStep, if_neg (by simp [hr])]
      rw [ih]
      simp only [commitsFrom, hr]
      rw [if_neg (by simp)]

lemma processLog_eq_applyCommits (pq vx lc : List RItem) (m : Metric) (d : ResultTable)
    (log : String) :
    processLog pq vx lc m d log = applyCommits m d (logCommits pq vx lc log) :=
  foldl_processLine_decomp pq vx lc m (splitLines log) d emptySlots

/-! ### Lookup and key lemmas for upsert and commit application -/

lemma lookupW_upsert_self (d : ResultTable) (w : String) (f : ResultRow → ResultRow) :
    lookupW (upsert d w f) w = some (f ((lookupW d w).getD {})) := by
  induction d with
  | nil => simp [upsert, lookupW]
  | cons kr t ih =>
    obtain ⟨k, r⟩ := kr
    by_cases h : k = w
    · simp [upsert, lookupW, h]
    · simp [upsert, lookupW, h, ih]

lemma keysOf_nil : keysOf [] = [] := rfl

lemma keysOf_cons (k : String) (r : ResultRow) (t : ResultTable) :
    keysOf ((k, r) :: t) = k :: keysOf t := rfl

lemma lookupW_upsert_ne (d : ResultTable) (w : String) (f : ResultRow → ResultRow)
    (w' : String) (h : w' ≠ w) : lookupW (upsert d w f) w' = lookupW d w' := by
  induction d with
  | nil => simp [upsert, lookupW, Ne.symm h]
  | cons kr t ih =>
    obtain ⟨k, r⟩ := kr
    by_cases hk : k = w
    · subst hk
      simp [upsert, lookupW, Ne.symm h]
    · simp [upsert, lookupW, hk, ih]

lemma lookupW_eq_none_iff (d : ResultTable) (w : String) :
    lookupW d w = none ↔ w ∉ keysOf d := by
  induction d with
  | nil => simp [lookupW, keysOf_nil]
  | cons kr t ih =>
    obtain ⟨k, r⟩ := kr
    by_cases h : k = w
    · subst h
      simp [lookupW, keysOf_cons]
    · simp only [lookupW, if_neg h, keysOf_cons, List.mem_cons, ih]
      simp [Ne.symm h]

lemma mem_keysOf_upsert (d : ResultTable) (w : String) (f : ResultRow → ResultRow)
    (a : String) : a ∈ keysOf (upsert d w f) ↔ a ∈ keysOf d ∨ a = w := by
  induction d with
  | nil => simp [upsert, keysOf_nil, keysOf_cons]
  | cons kr t ih =>
    obtain ⟨k, r⟩ := kr
    by_cases h : k = w
    · subst h
      simp only [upsert, eq_self_iff_true, if_true, keysOf_cons, List.mem_cons]
      tauto
    · simp only [upsert, if_neg h, keysOf_cons, List.mem_cons, ih]
      tauto

lemma keysOf_upsert (d : ResultTable) (w : String) (f : ResultRow → ResultRow) :
    keysOf (upsert d w f)
      = if w ∈ keysOf d then keysOf d else keysOf d ++ [w] := by
  induction d with
  | nil => simp [upsert, keysOf_nil, keysOf_cons]
  | cons kr t ih =>
    obtain ⟨k, r⟩ := kr
    by_cases h : k = w
    · subst h
      rw [if_pos (by simp [keysOf_cons])]
      simp only [upsert, eq_self_iff_true, if_true, keysOf_cons]
    · by_cases hw : w ∈ keysOf t
      · rw [if_pos (by simp [keysOf_cons, hw])]
        simp only [upsert, if_neg h, keysOf_cons, ih, if_pos hw]
      · rw [if_neg (by simp [keysOf_cons, hw, Ne.symm h])]
        simp only [upsert, if_neg h, keysOf_cons, ih, if_neg hw]
        rfl

lemma nodup_keysOf_upsert (d : ResultTable) (w : String) (f : ResultRow → ResultRow)
    (h : (keysOf d).Nodup) : (keysOf (upsert d w f)).Nodup := by
  rw [keysOf_upsert]
  by_cases hw : w ∈ keysOf d
  · simpa [hw] using h
  · simp [hw, List.nodup_append, h]

lemma lookupW_applyCommits_not_mem (m : Metric) :
    ∀ (cs : List Commit) (d : ResultTable) (w : String), w ∉ cs.map Commit.w →
      lookupW (applyCommits m d cs) w = lookupW d w := by
  intro cs
  induction cs with
  | nil => intro d w _; rfl
  | cons c cs ih =>
    intro d w hw
    simp only [List.map_cons, List.mem_cons] at hw
    push_neg at hw
    rw [applyCommits_cons, ih _ _ hw.2, applyCommit, lookupW_upsert_ne _ _ _ _ hw.1]

lemma mem_keysOf_applyCommits (m : Metric) :
    ∀ (cs : List Commit) (d : ResultTable) (w : String),
      w ∈ keysOf (applyCommits m d cs) ↔ w ∈ keysOf d ∨ w ∈ cs.map Commit.w := by
  intro cs
  induction cs with
  | nil => intro d w; simp [applyCommits_nil]
  | cons c cs ih =>
    intro d w
    rw [applyCommits_cons, ih]
    simp [applyCommit, mem_keysOf_upsert]
    tauto

lemma nodup_keysOf_applyCommits (m : Metric) :
    ∀ (cs : List Commit) (d : ResultTable), (keysOf d).Nodup →
      (keysOf (applyCommits m d cs)).Nodup := by
  intro cs
  induction cs with
  | nil => intro d h; exact h
  | cons c cs ih =>
    intro d h
    rw [applyCommits_cons]
    exact ih _ (nodup_keysOf_upsert _ _ _ h)

/-! ### Field facts about commits -/

lemma setMetricFields_done (m : Metric) (w p v l : String) (r : ResultRow) :
    metricDone m (setMetricFields m w p v l r) := by
  cases m <;> simp [metricDone, sizeDone, scanDone, setMetricFields]

lemma setMetricFields_other (m : Metric) (w p v l : String) (r : ResultRow)
    (h : otherMetricAbsent m r) : otherMetricAbsent m (setMetricFields m w p v l r) := by
  cases m <;> simpa [otherMetricAbsent, sizeAbsent, scanAbsent, setMetricFields] using h

lemma setMetricFields_workload (m : Metric) (w p v l : String) (r : ResultRow) :
    (setMetricFields m w p v l r).workload = some w := by
  cases m <;> simp [setMetricFields]

lemma otherMetricAbsent_empty (m : Metric) : otherMetricAbsent m {} := by
  cases m <;> simp [otherMetricAbsent, sizeAbsent, scanAbsent]

lemma setMetricFields_scan_preserves_sizeDone (w p v l : String) (r : ResultRow)
    (h : sizeDone r) : sizeDone (setMetricFields .SCAN_TIME w p v l r) := by
  simpa [sizeDone, setMetricFields] using h

lemma setMetricFields_scanDone (w p v l : String) (r : ResultRow) :
    scanDone (setMetricFields .SCAN_TIME w p v l r) := by
  simp [scanDone, setMetricFields]

/-- Generic preservation: a property stable under the commits of key w
survives any commit sequence. -/
lemma lookupW_applyCommits_keep (m : Metric) (w : String) (P : ResultRow → Prop)
    (hP : ∀ p v l r, P r → P (setMetricFields m w p v l r)) :
    ∀ (cs : List Commit) (d : ResultTable) (r : ResultRow),
      lookupW d w = some r → P r →
      ∃ r', lookupW (applyCommits m d cs) w = some r' ∧ P r' := by
  intro cs
  induction cs with
  | nil => intro d r h hr; exact ⟨r, h, hr⟩
  | cons c cs ih =>
    intro d r h hr
    rw [applyCommits_cons]
    by_cases hc : c.w = w
    · subst hc
      refine ih _ (setMetricFields m c.w c.p c.v c.l r) ?_ (hP _ _ _ _ hr)
      rw [applyCommit, lookupW_upsert_self, h]
      rfl
    · refine ih _ r ?_ hr
      rw [applyCommit, lookupW_upsert_ne _ _ _ _ (fun e => hc e.symm), h]

/-- A workload unseen in the table but committed during a pass ends up
with the fields of the active family populated, the other family
absent, and its own key recorded. -/
lemma lookupW_applyCommits_fresh (m : Metric) (w : String) :
    ∀ (cs : List Commit) (d : ResultTable),
      lookupW d w = none → w ∈ cs.map Commit.w →
      ∃ r, lookupW (applyCommits m d cs) w = some r ∧ metricDone m r ∧
        otherMetricAbsent m r ∧ r.workload = some w := by
  intro cs
  induction cs with
  | nil => intro d _ hw; simp at hw
  | cons c cs ih =>
    intro d hnone hw
    rw [applyCommits_cons]
    by_cases hc : c.w = w
    · subst hc
      have hlook : lookupW (applyCommit m d c) c.w
          = some (setMetricFields m c.w c.p c.v c.l {}) := by
        rw [applyCommit, lookupW_upsert_self, hnone]
        rfl
      have hP0 : metricDone m (setMetricFields m c.w c.p c.v c.l {}) ∧
          otherMetricAbsent m (setMetricFields m c.w c.p c.v c.l {}) ∧
          (setMetricFields m c.w c.p c.v c.l ({} : ResultRow)).workload = some c.w :=
        ⟨setMetricFields_done _ _ _ _ _ _,
         setMetricFields_other _ _ _ _ _ _ (otherMetricAbsent_empty m),
         setMetricFields_workload _ _ _ _ _ _⟩
      obtain ⟨r', hr', hPr'⟩ := lookupW_applyCommits_keep m c.w
        (fun r => metricDone m r ∧ otherMetricAbsent m r ∧ r.workload = some c.w)
        (fun p v l r hr =>
          ⟨setMetricFields_done _ _ _ _ _ _,
           setMetricFields_other _ _ _ _ _ _ hr.2.1,
           setMetricFields_workload _ _ _ _ _ _⟩)
        cs _ _ hlook hP0
      exact ⟨r', hr', hPr'.1, hPr'.2.1, hPr'.2.2⟩
    · simp only [List.map_cons, List.mem_cons] at hw
      rcases hw with hw | hw
      · exact absurd hw.symm hc
      · refine ih _ ?_ hw
        rw [applyCommit, lookupW_upsert_ne _ _ _ _ (fun e => hc e.symm)]
        exact hnone

/-- A row already present with its size fields populated keeps them
through a scan-time pass, and gains the scan-time fields when its
workload is committed again. -/
lemma scan_pass_on_existing (w : String) :
    ∀ (cs : List Commit) (d : ResultTable) (r : ResultRow),
      lookupW d w = some r → sizeDone r → w ∈ cs.map Commit.w →
      ∃ r', lookupW (applyCommits .SCAN_TIME d cs) w = some r' ∧ sizeDone r' ∧ scanDone r' ∧
        r'.workload = some w := by
  intro cs
  induction cs with
  | nil => intro d r _ _ hw; simp at hw
  | cons c cs ih =>
    intro d r hr hsz hw
    rw [applyCommits_cons]
    by_cases hc : c.w = w
    · subst hc
      have hlook : lookupW (applyCommit .SCAN_TIME d c) c.w
          = some (setMetricFields .SCAN_TIME c.w c.p c.v c.l r) := by
        rw [applyCommit, lookupW_upsert_self, hr]
        rfl
      obtain ⟨r', hr', hP⟩ := lookupW_applyCommits_keep .SCAN_TIME c.w
        (fun x => sizeDone x ∧ scanDone x ∧ x.workload = some c.w)
        (fun p v l x hx =>
          ⟨setMetricFields_scan_preserves_sizeDone _ _ _ _ _ hx.1,
           setMetricFields_scanDone _ _ _ _ _,
           setMetricFields_workload _ _ _ _ _ _⟩)
        cs _ _ hlook
        ⟨setMetricFields_scan_preserves_sizeDone _ _ _ _ _ hsz,
         setMetricFields_scanDone _ _ _ _ _,
         setMetricFields_workload _ _ _ _ _ _⟩
      exact ⟨r', hr', hP.1, hP.2.1, hP.2.2⟩
    · simp only [List.map_cons, List.mem_cons] at hw
      rcases hw with hw | hw
      · exact absurd hw.symm hc
      · refine ih _ r ?_ hsz hw
        rw [applyCommit, lookupW_upsert_ne _ _ _ _ (Ne.symm hc)]
        exact hr

lemma mem_keys_sizePass (a w : String) :
    w ∈ keysOf (sizePassTable a)
      ↔ w ∈ (logCommits parquetSizePat vortexSizePat lanceSizePat a).map Commit.w := by
  rw [sizePassTable, processLog_eq_applyCommits]
  simpa [keysOf_nil] using
    mem_keysOf_applyCommits .SIZE (logCommits parquetSizePat vortexSizePat lanceSizePat a) [] w

lemma mem_keys_scanPass (b w : String) :
    w ∈ keysOf (scanPassTable b)
      ↔ w ∈ (logCommits parquetScanPat vortexScanPat lanceScanPat b).map Commit.w := by
  rw [scanPassTable, processLog_eq_applyCommits]
  simpa [keysOf_nil] using
    mem_keysOf_applyCommits .SCAN_TIME (logCommits parquetScanPat vortexScanPat lanceScanPat b)
      [] w

/-- C3: the two-pass merge is a disjoint union on workload keys.  A
workload committed only by the size pass gets one merged row with the
three scan-time fields absent (not zero: the none value); a workload
committed only by the scan-time pass gets one row with the three size
fields absent; a workload committed by both passes gets one row with
all six fields populated; the merged key list covers exactly the union
and has no duplicate row keys. -/
theorem merge_is_disjoint_union (a b w : String) :
    (w ∈ keysOf (sizePassTable a) → w ∉ keysOf (scanPassTable b) →
      ∃ r, lookupW (mergedTable a b) w = some r ∧ sizeDone r ∧ scanAbsent r ∧
        r.workload = some w)
    ∧ (w ∉ keysOf (sizePassTable a) → w ∈ keysOf (scanPassTable b) →
      ∃ r, lookupW (mergedTable a b) w = some r ∧ scanDone r ∧ sizeAbsent r ∧
        r.workload = some w)
    ∧ (w ∈ keysOf (sizePassTable a) → w ∈ keysOf (scanPassTable b) →
      ∃ r, lookupW (mergedTable a b) w = some r ∧ sizeDone r ∧ scanDone r ∧
        r.workload = some w)
    ∧ (w ∈ keysOf (mergedTable a b)
        ↔ w ∈ keysOf (sizePassTable a) ∨ w ∈ keysOf (scanPassTable b))
    ∧ (keysOf (mergedTable a b)).Nodup := by
  have hSizeEq : sizePassTable a
      = applyCommits .SIZE [] (logCommits parquetSizePat vortexSizePat lanceSizePat a) :=
    processLog_eq_applyCommits _ _ _ _ _ _
  have hMergeEq : mergedTable a b
      = applyCommits .SCAN_TIME (sizePassTable a)
          (logCommits parquetScanPat vortexScanPat lanceScanPat b) :=
    processLog_eq_applyCommits _ _ _ _ _ _
  have hSizeRow : w ∈ keysOf (sizePassTable a) →
      ∃ r, lookupW (sizePassTable a) w = some r ∧ sizeDone r ∧ scanAbsent r ∧
        r.workload = some w := by
    intro hA
    have := lookupW_applyCommits_fresh .SIZE w
      (logCommits parquetSizePat vortexSizePat lanceSizePat a) [] rfl
      ((mem_keys_sizePass a w).mp hA)
    rw [← hSizeEq] at this
    exact this
  refine ⟨?_, ?_, ?_, ?_, ?_⟩
  · intro hA hB
    obtain ⟨r, hr, hdone, habs, hwl⟩ := hSizeRow hA
    have hkeep : lookupW (mergedTable a b) w = lookupW (sizePassTable a) w := by
      rw [hMergeEq]
      exact lookupW_applyCommits_not_mem _ _ _ _
        (fun hmem => hB ((mem_keys_scanPass b w).mpr hmem))
    exact ⟨r, by rw [hkeep]; exact hr, hdone, habs, hwl⟩
  · intro hA hB
    have hnone : lookupW (sizePassTable a) w = none := (lookupW_eq_none_iff _ _).mpr hA
    have := lookupW_applyCommits_fresh .SCAN_TIME w
      (logCommits parquetScanPat vortexScanPat lanceScanPat b) (sizePassTable a) hnone
      ((mem_keys_scanPass b w).mp hB)
    rw [← hMergeEq] at this
    exact this
  · intro hA hB
    obtain ⟨r, hr, hdone, _, _⟩ := hSizeRow hA
    have := scan_pass_on_existing w
      (logCommits parquetScanPat vortexScanPat lanceScanPat b) (sizePassTable a) r hr hdone
      ((mem_keys_scanPass b w).mp hB)
    rw [← hMergeEq] at this
    exact this
  · rw [hMergeEq, mem_keysOf_applyCommits, mem_keys_scanPass]
  · rw [hMergeEq, hSizeEq]
    exact nodup_keysOf_applyCommits _ _ _ (nodup_keysOf_applyCommits _ _ _ (by simp [keysOf_nil]))

/-- Witness for C3: a size log with clusters for core and shared, a
scan-time log with clusters for lineitem and shared; core has only size
fields, lineitem only scan-time fields, shared all six. -/
theorem merge_is_disjoint_union_witness :
    (∃ r, lookupW (mergedTable
        "/parquet/core.parquet\nParquet size: 1.0 MB, 10B\nVortex size: 2.0 MB, 10B\nLance directory aggregate size: 3.0 MB, 10B\n/parquet/shared.parquet\nParquet size: 4.0 MB, 10B\nVortex size: 5.0 MB, 10B\nLance directory aggregate size: 6.0 MB, 10B"
        "/parquet/lineitem.parquet\nReading parquet file took 1.1ms\nReading vortex file took 2.2ms\nReading lance file took 3.3ms\n/parquet/shared.parquet\nReading parquet file took 4.4ms\nReading vortex file took 5.5ms\nReading lance file took 6.6ms")
        "core" = some r ∧ sizeDone r ∧ scanAbsent r ∧ r.workload = some "core")
    ∧ (∃ r, lookupW (mergedTable
        "/parquet/core.parquet\nParquet size: 1.0 MB, 10B\nVortex size: 2.0 MB, 10B\nLance directory aggregate size: 3.0 MB, 10B\n/parquet/shared.parquet\nParquet size: 4.0 MB, 10B\nVortex size: 5.0 MB, 10B\nLance directory aggregate size: 6.0 MB, 10B"
        "/parquet/lineitem.parquet\nReading parquet file took 1.1ms\nReading vortex file took 2.2ms\nReading lance file took 3.3ms\n/parquet/shared.parquet\nReading parquet file took 4.4ms\nReading vortex file took 5.5ms\nReading lance file took 6.6ms")
        "lineitem" = some r ∧ scanDone r ∧ sizeAbsent r ∧ r.workload = some "lineitem")
    ∧ (∃ r, lookupW (mergedTable
        "/parquet/core.parquet\nParquet size: 1.0 MB, 10B\nVortex size: 2.0 MB, 10B\nLance directory aggregate size: 3.0 MB, 10B\n/parquet/shared.parquet\nParquet size: 4.0 MB, 10B\nVortex size: 5.0 MB, 10B\nLance directory aggregate size: 6.0 MB, 10B"
        "/parquet/lineitem.parquet\nReading parquet file took 1.1ms\nReading vortex file took 2.2ms\nReading lance file took 3.3ms\n/parquet/shared.parquet\nReading parquet file took 4.4ms\nReading vortex file took 5.5ms\nReading lance file took 6.6ms")
        "shared" = some r ∧ sizeDone r ∧ scanDone r ∧ r.workload = some "shared") :=
  ⟨(merge_is_disjoint_union _ _ "core").1 (by decide) (by decide),
   (merge_is_disjoint_union _ _ "lineitem").2.1 (by decide) (by decide),
   (merge_is_disjoint_union _ _ "shared").2.2.1 (by decide) (by decide)⟩

/-! ### First-seen order of the exported rows -/

lemma dedupFirstAux_congr : ∀ (xs s1 s2 : List String), (∀ a, a ∈ s1 ↔ a ∈ s2) →
    dedupFirstAux s1 xs = dedupFirstAux s2 xs := by
  intro xs
  induction xs with
  | nil => intro _ _ _; rfl
  | cons x xs ih =>
    intro s1 s2 h
    simp only [dedupFirstAux]
    by_cases hx : x ∈ s1
    · rw [if_pos hx, if_pos ((h x).mp hx)]
      exact ih s1 s2 h
    · rw [if_neg hx, if_neg (fun hx2 => hx ((h x).mpr hx2))]
      rw [ih (x :: s1) (x :: s2) (by intro a; simp [h a])]

lemma dedupFirstAux_append : ∀ (xs ys s : List String),
    dedupFirstAux s (xs ++ ys)
      = dedupFirstAux s xs ++ dedupFirstAux (dedupFirstAux s xs ++ s) ys := by
  intro xs
  induction xs with
  | nil => intro ys s; simp [dedupFirstAux]
  | cons x xs ih =>
    intro ys s
    simp only [List.cons_append, dedupFirstAux]
    by_cases hx : x ∈ s
    · rw [if_pos hx, if_pos hx]
      exact ih ys s
    · rw [if_neg hx, if_neg hx]
      simp only [List.append_eq]
      rw [ih ys (x :: s)]
      simp only [List.cons_append]
      congr 2
      apply dedupFirstAux_congr
      intro a
      simp only [List.mem_append, List.mem_cons]
      tauto

lemma keysOf_applyCommits (m : Metric) : ∀ (cs : List Commit) (d : ResultTable),
    keysOf (applyCommits m d cs)
      = keysOf d ++ dedupFirstAux (keysOf d) (cs.map Commit.w) := by
  intro cs
  induction cs with
  | nil => intro d; simp [applyCommits_nil, dedupFirstAux]
  | cons c cs ih =>
    intro d
    rw [applyCommits_cons, ih]
    simp only [List.map_cons, dedupFirstAux]
    by_cases hc : c.w ∈ keysOf d
    · rw [if_pos hc, show keysOf (applyCommit m d c) = keysOf d from by
        rw [applyCommit, keysOf_upsert, if_pos hc]]
    · rw [if_neg hc, show keysOf (applyCommit m d c) = keysOf d ++ [c.w] from by
        rw [applyCommit, keysOf_upsert, if_neg hc]]
      rw [List.append_assoc, List.singleton_append]
      congr 2
      apply dedupFirstAux_congr
      intro a
      simp only [List.mem_append, List.mem_cons]
      tauto

lemma keysOf_mergedTable (a b : String) :
    keysOf (mergedTable a b)
      = dedupFirst (committedWs parquetSizePat vortexSizePat lanceSizePat a
          ++ committedWs parquetScanPat vortexScanPat lanceScanPat b) := by
  have hSizeEq : sizePassTable a
      = applyCommits .SIZE [] (logCommits parquetSizePat vortexSizePat lanceSizePat a) :=
    processLog_eq_applyCommits _ _ _ _ _ _
  have hMergeEq : mergedTable a b
      = applyCommits .SCAN_TIME (sizePassTable a)
          (logCommits parquetScanPat vortexScanPat lanceScanPat b) :=
    processLog_eq_applyCommits _ _ _ _ _ _
  have h1 : keysOf (sizePassTable a)
      = dedupFirstAux [] (committedWs parquetSizePat vortexSizePat lanceSizePat a) := by
    rw [hSizeEq, keysOf_applyCommits]
    simp [keysOf_nil, committedWs]
  rw [hMergeEq, keysOf_applyCommits, h1, dedupFirst, dedupFirstAux_append]
  congr 1
  apply dedupFirstAux_congr
  intro x
  simp [committedWs]

/-- C5: the exported CSV is the exact fixed header followed by one line
per workload; the key list of the table is the first-seen order of the
committed workloads of the two passes; and every cell of a data line is
the field value, with an absent field serialising as the empty string. -/
theorem csv_fixed_layout (a b : String) :
    getResultCsv a b
      = "workload,parquet_size,vortex_size,lance_size,lance_scan_time,parquet_scan_time,vortex_scan_time"
        :: (mergedTable a b).map (fun kr => rowLine kr.2)
    ∧ keysOf (mergedTable a b)
      = dedupFirst (committedWs parquetSizePat vortexSizePat lanceSizePat a
          ++ committedWs parquetScanPat vortexScanPat lanceScanPat b)
    ∧ ∀ r : ResultRow, rowLine r = csvJoin (fieldnames.map (fun n =>
        match fieldGet r n with
        | some s => s
        | none => "")) := by
  refine ⟨?_, keysOf_mergedTable a b, ?_⟩
  · show exportCsv (mergedTable a b) = _
    rw [exportCsv]
    congr 1
  · intro r
    rw [rowLine]
    apply congrArg
    apply List.map_congr_left
    intro n _
    cases fieldGet r n <;> rfl

/-! ### CSV round trip -/

lemma splitSep_no_sep (sep : Char) : ∀ cs, (∀ c ∈ cs, c ≠ sep) →
    splitSep sep cs = [cs] := by
  intro cs
  induction cs with
  | nil => intro _; rfl
  | cons c cs ih =>
    intro h
    have hc : c ≠ sep := h c (by simp)
    simp only [splitSep, if_neg hc]
    rw [ih (fun x hx => h x (by simp [hx]))]

lemma splitSep_append_sep (sep : Char) : ∀ cs rest, (∀ c ∈ cs, c ≠ sep) →
    splitSep sep (cs ++ sep :: rest) = cs :: splitSep sep rest := by
  intro cs
  induction cs with
  | nil => intro rest _; simp [splitSep]
  | cons c cs ih =>
    intro rest h
    have hc : c ≠ sep := h c (by simp)
    simp only [List.cons_append, splitSep, if_neg hc, List.append_eq]
    rw [ih rest (fun x hx => h x (by simp [hx]))]

lemma csvJoin_cons₂ (x y : String) (ys : List String) :
    (csvJoin (x :: y :: ys)).data = x.data ++ ',' :: (csvJoin (y :: ys)).data := by
  show (x ++ "," ++ csvJoin (y :: ys)).data = _
  have hcomma : (",").data = [','] := rfl
  simp [hcomma]

lemma splitSep_csvJoin : ∀ (cells : List String), cells ≠ [] →
    (∀ s ∈ cells, ∀ c ∈ s.data, c ≠ ',') →
    splitSep ',' (csvJoin cells).data = cells.map String.data := by
  intro cells
  induction cells with
  | nil => intro h _; exact absurd rfl h
  | cons x cs ih =>
    intro _ hsafe
    cases cs with
    | nil =>
      show splitSep ',' (csvJoin [x]).data = [x.data]
      exact splitSep_no_sep ',' x.data (hsafe x (by simp))
    | cons y ys =>
      rw [csvJoin_cons₂, splitSep_append_sep ',' x.data _ (hsafe x (by simp)),
        ih (by simp) (fun s hs => hsafe s (by simp [hs]))]
      rfl

lemma commaFree_getD (o : Option String) (h : csvSafeOpt o) :
    ∀ c ∈ (o.getD "").data, c ≠ ',' := by
  cases o with
  | none => intro c hc; simp at hc
  | some s => intro c hc; exact (h.2 c hc).1

lemma parseCell_getD (o : Option String) (h : csvSafeOpt o) :
    parseCell ((o.getD "").data) = o := by
  cases o with
  | none => rfl
  | some s =>
    have hne : s.data ≠ [] := h.1
    simp [parseCell, hne]

lemma parseCsvRow_rowLine (k : String) (r : ResultRow) (h : rowClean k r) :
    parseCsvRow (rowLine r) = (k, r) := by
  obtain ⟨hwl, hk, h1, h2, h3, h4, h5, h6⟩ := h
  have hwopt : csvSafeOpt r.workload := by rw [hwl]; exact hk
  have hsafe2 : ∀ s ∈ [r.workload.getD "", r.parquet_size.getD "", r.vortex_size.getD "",
      r.lance_size.getD "", r.lance_scan_time.getD "", r.parquet_scan_time.getD "",
      r.vortex_scan_time.getD ""], ∀ c ∈ s.data, c ≠ ',' := by
    intro s hs
    simp only [List.mem_cons, List.not_mem_nil, or_false] at hs
    rcases hs with rfl | rfl | rfl | rfl | rfl | rfl | rfl
    · exact commaFree_getD _ hwopt
    · exact commaFree_getD _ h1
    · exact commaFree_getD _ h2
    · exact commaFree_getD _ h3
    · exact commaFree_getD _ h6
    · exact commaFree_getD _ h4
    · exact commaFree_getD _ h5
  have hcells : splitSep ',' (rowLine r).data
      = [(r.workload.getD "").data, (r.parquet_size.getD "").data,
         (r.vortex_size.getD "").data, (r.lance_size.getD "").data,
         (r.lance_scan_time.getD "").data, (r.parquet_scan_time.getD "").data,
         (r.vortex_scan_time.getD "").data] := by
    have hmap : fieldnames.map (fun n => (fieldGet r n).getD "")
        = [r.workload.getD "", r.parquet_size.getD "", r.vortex_size.getD "",
           r.lance_size.getD "", r.lance_scan_time.getD "", r.parquet_scan_time.getD "",
           r.vortex_scan_time.getD ""] := by
      simp [fieldnames, fieldGet]
    rw [rowLine, hmap, splitSep_csvJoin _ (by simp) hsafe2]
    rfl
  rw [parseCsvRow, hcells]
  simp only [List.getD_cons_zero, List.getD_cons_succ]
  rw [parseCell_getD _ hwopt, parseCell_getD _ h1, parseCell_getD _ h2,
    parseCell_getD _ h3, parseCell_getD _ h6, parseCell_getD _ h4, parseCell_getD _ h5]
  have hfst : String.mk ((r.workload.getD "").data) = k := by
    rw [hwl]
    rfl
  rw [hfst]

/-- C6: exporting a table whose rows carry their own workload key and
whose cells are nonempty CSV-safe values, then re-parsing the CSV,
restores the table field for field (an empty cell reads back as an
absent field). -/
theorem csv_round_trip (d : ResultTable) (h : ∀ kr ∈ d, rowClean kr.1 kr.2) :
    parseCsv (exportCsv d) = d := by
  have hpt : ∀ kr ∈ d, parseCsvRow (rowLine kr.2) = kr := by
    intro kr hm
    exact parseCsvRow_rowLine kr.1 kr.2 (h kr hm)
  simp only [parseCsv, exportCsv, List.drop_succ_cons, List.drop_zero, List.map_map]
  calc d.map (parseCsvRow ∘ fun kr => rowLine kr.2)
      = d.map id := List.map_congr_left (fun kr hm => hpt kr hm)
    _ = d := List.map_id d

/-- Witness for C6: a one-row table with only a workload and a parquet
size survives the round trip. -/
theorem csv_round_trip_witness :
    parseCsv (exportCsv [("core", { workload := some "core", parquet_size := some "1.5" })])
      = [("core", { workload := some "core", parquet_size := some "1.5" })] :=
  csv_round_trip _ (by decide)

end FffBench
